import Mathlib

/-!
Verification of the `rdf-types` interning and term-algebra layer.

We give a shallow embedding of the relevant Rust code:

* `src/vocabulary/index.rs`: the `IndexVocabulary` interning engine, the
  `IriIndex`/`BlankIdIndex` identifier unions, the `IndexedIri` /
  `IndexedBlankId` trait (modelled as a structure of functions), and the
  default `Index` identifier type whose `TryFrom` implementations always
  fail.
* `src/term/id.rs` and `src/term/mod.rs`: the `Id` and `Term` sum types and
  their hand-written `Hash` / `PartialEq` / `PartialOrd` implementations.
* `src/quad.rs`: the `Quad` tuple, its component-wise `PartialEq` /
  `PartialOrd` implementations, and `TryExtractFromVocabulary` with its
  `QuadExportFailed` error type.
* `src/generator.rs`: the sequential `Blank` node-identifier generator.

Lexical IRIs and blank-node identifiers are modelled as `String`; the Rust
`HashMap` is modelled as an association list (`lookupAssoc`) with the usual
finite-map semantics; `usize` indices are modelled as `Nat` (the claims never
touch the overflow boundary); Rust's `&mut self` methods become functions
returning the new state.
-/

namespace RdfTypes

/-- Association-list lookup, modelling `HashMap::get` on the vocabulary's
`map`/`blank_map` fields. -/
def lookupAssoc : List (String × Nat) → String → Option Nat
  | [], _ => none
  | (k, v) :: rest, s => if k = s then some v else lookupAssoc rest s

/-- Model of `IriIndex<I>` from `src/vocabulary/index.rs`: an IRI identifier that is
either a dynamic index into the vocabulary or a statically known
(non-indexed) IRI of type `I`. -/
inductive IriIndex (I : Type) where
  | index : Nat → IriIndex I
  | iri : I → IriIndex I
deriving DecidableEq, Repr

/-- Model of `BlankIdIndex<B>` from `src/vocabulary/index.rs`: a blank-node identifier
that is either a dynamic index or a statically known blank id of type `B`. -/
inductive BlankIdIndex (B : Type) where
  | index : Nat → BlankIdIndex B
  | blankId : B → BlankIdIndex B
deriving DecidableEq, Repr

/-- The `IndexedIri` trait from `src/vocabulary/index.rs`, modelled as a
structure of functions: `From<usize>`, `TryFrom<Iri>` (returning `none` on
failure) and `fn index(&self) -> IriIndex<Iri>` where the inline case carries
the lexical IRI. -/
structure IndexedIri (I : Type) where
  ofNat : Nat → I
  tryFromIri : String → Option I
  index : I → IriIndex String

/-- The `IndexedBlankId` trait from `src/vocabulary/index.rs`, modelled as a
structure of functions, symmetrically to `IndexedIri`. -/
structure IndexedBlankId (B : Type) where
  ofNat : Nat → B
  tryFromBlankId : String → Option B
  blank_id_index : B → BlankIdIndex String

/-- The default `Index` identifier type (`struct Index(usize)`), modelled
transparently as `Nat`. -/
abbrev Index : Type := Nat

/-- The `IndexedIri` implementation for `Index`: `From<usize>` wraps the
integer, `TryFrom<Iri>` always fails (`Err(())`), and `index()` returns
`IriIndex::Index(self.0)`. -/
def Index.indexedIri : IndexedIri Index where
  ofNat := fun i => i
  tryFromIri := fun _ => none
  index := fun i => .index i

/-- The `IndexedBlankId` implementation for `Index`: `TryFrom<&BlankId>`
always fails and `blank_id_index()` returns `BlankIdIndex::Index(self.0)`. -/
def Index.indexedBlankId : IndexedBlankId Index where
  ofNat := fun i => i
  tryFromBlankId := fun _ => none
  blank_id_index := fun i => .index i

/-- The `IndexVocabulary` interning engine state from
`src/vocabulary/index.rs`: an arena of allocated lexical IRIs with a reverse
hash map, and an independent, identically structured pair for blank-node
identifiers. -/
structure IndexVocabulary where
  allocated : List String
  map : List (String × Nat)
  blank_allocated : List String
  blank_map : List (String × Nat)
deriving Repr

/-- Model of `IndexVocabulary::new` / `Default`: all four containers empty. -/
def IndexVocabulary.new : IndexVocabulary :=
  { allocated := [], map := [], blank_allocated := [], blank_map := [] }

/-- Model of `IriVocabularyMut::insert` for `IndexVocabulary` (generic over the
`IndexedIri` identifier type `I`): first try `I::try_from(iri)`; on success
return the inline identifier unchanged; otherwise consult the map
(`entry(...).or_insert_with_key`): if present return the stored index, if
absent append the lexical form to the arena at index `allocated.len()`,
record the mapping, and return the new index. -/
def IndexVocabulary.insert (inst : IndexedIri I) (v : IndexVocabulary)
    (iriStr : String) : I × IndexVocabulary :=
  match inst.tryFromIri iriStr with
  | some id => (id, v)
  | none =>
    match lookupAssoc v.map iriStr with
    | some i => (inst.ofNat i, v)
    | none =>
      (inst.ofNat v.allocated.length,
        { v with
          allocated := v.allocated ++ [iriStr]
          map := (iriStr, v.allocated.length) :: v.map })

/-- Model of `IriVocabulary::iri` for `IndexVocabulary` (the resolve direction):
match on `id.index()`; an inline IRI resolves to itself, a dynamic index is
looked up in the arena with `allocated.get(i)`. -/
def IndexVocabulary.iri (inst : IndexedIri I) (v : IndexVocabulary)
    (id : I) : Option String :=
  match inst.index id with
  | .iri s => some s
  | .index i => v.allocated[i]?

/-- Model of `IriVocabulary::get` for `IndexVocabulary`: first try
`I::try_from(iri)`; on success return it, otherwise a pure map lookup. -/
def IndexVocabulary.get (inst : IndexedIri I) (v : IndexVocabulary)
    (iriStr : String) : Option I :=
  match inst.tryFromIri iriStr with
  | some id => some id
  | none => (lookupAssoc v.map iriStr).map inst.ofNat

/-- Model of `BlankIdVocabularyMut::insert_blank_id` for `IndexVocabulary`:
identically structured to `insert`, over the independent
`blank_allocated`/`blank_map` pair. -/
def IndexVocabulary.insert_blank_id (inst : IndexedBlankId B)
    (v : IndexVocabulary) (blankIdStr : String) : B × IndexVocabulary :=
  match inst.tryFromBlankId blankIdStr with
  | some id => (id, v)
  | none =>
    match lookupAssoc v.blank_map blankIdStr with
    | some i => (inst.ofNat i, v)
    | none =>
      (inst.ofNat v.blank_allocated.length,
        { v with
          blank_allocated := v.blank_allocated ++ [blankIdStr]
          blank_map := (blankIdStr, v.blank_allocated.length) :: v.blank_map })

/-- Model of `BlankIdVocabulary::blank_id` for `IndexVocabulary`: resolve a blank-node
identifier, via `blank_allocated.get(i)` for a dynamic index. -/
def IndexVocabulary.blank_id (inst : IndexedBlankId B) (v : IndexVocabulary)
    (id : B) : Option String :=
  match inst.blank_id_index id with
  | .blankId s => some s
  | .index i => v.blank_allocated[i]?

/-- Model of `BlankIdVocabulary::get_blank_id` for `IndexVocabulary`. -/
def IndexVocabulary.get_blank_id (inst : IndexedBlankId B)
    (v : IndexVocabulary) (blankIdStr : String) : Option B :=
  match inst.tryFromBlankId blankIdStr with
  | some id => some id
  | none => (lookupAssoc v.blank_map blankIdStr).map inst.ofNat

/-- Well-formedness of an `IndexVocabulary` state: every map entry points at
the arena slot holding exactly its key. This holds for `new` and is
preserved by both insertion operations (proved below), so it holds of every
vocabulary actually built through the API. -/
structure WF (v : IndexVocabulary) : Prop where
  iri_sound : ∀ s i, lookupAssoc v.map s = some i → v.allocated[i]? = some s
  blank_sound : ∀ s i,
    lookupAssoc v.blank_map s = some i → v.blank_allocated[i]? = some s

theorem wf_new : WF IndexVocabulary.new := by
  constructor <;> intro s i h <;> simp [lookupAssoc, IndexVocabulary.new] at h

theorem lookupAssoc_lt_of_sound {v : IndexVocabulary}
    (hv : WF v) {s : String} {i : Nat}
    (h : lookupAssoc v.map s = some i) : i < v.allocated.length := by
  have := hv.iri_sound s i h
  exact List.getElem?_eq_some_iff.mp this |>.1

theorem wf_insert {v : IndexVocabulary} (hv : WF v) (x : String) :
    WF (IndexVocabulary.insert Index.indexedIri v x).2 := by
  unfold IndexVocabulary.insert
  simp only [Index.indexedIri]
  cases hlook : lookupAssoc v.map x with
  | some i => exact hv
  | none =>
    constructor
    · intro s i h
      simp only [lookupAssoc] at h
      by_cases hs : x = s
      · subst hs
        simp at h
        subst h
        simp
      · simp [hs] at h
        have hi := hv.iri_sound s i h
        have hlt : i < v.allocated.length :=
          List.getElem?_eq_some_iff.mp hi |>.1
        simpa [List.getElem?_append_left hlt] using hi
    · intro s i h
      exact hv.blank_sound s i h

theorem wf_insert_blank {v : IndexVocabulary} (hv : WF v) (x : String) :
    WF (IndexVocabulary.insert_blank_id Index.indexedBlankId v x).2 := by
  unfold IndexVocabulary.insert_blank_id
  simp only [Index.indexedBlankId]
  cases hlook : lookupAssoc v.blank_map x with
  | some i => exact hv
  | none =>
    constructor
    · intro s i h
      exact hv.iri_sound s i h
    · intro s i h
      simp only [lookupAssoc] at h
      by_cases hs : x = s
      · subst hs
        simp at h
        subst h
        simp
      · simp [hs] at h
        have hi := hv.blank_sound s i h
        have hlt : i < v.blank_allocated.length :=
          List.getElem?_eq_some_iff.mp hi |>.1
        simpa [List.getElem?_append_left hlt] using hi

/-- A single mutation of an `IndexVocabulary` through its public insertion
API (at the default `Index` identifier types). -/
inductive VocabOp where
  | insertIri : String → VocabOp
  | insertBlank : String → VocabOp
deriving DecidableEq, Repr

/-- Apply one insertion operation to a vocabulary state. -/
def applyOp (v : IndexVocabulary) : VocabOp → IndexVocabulary
  | .insertIri s => (IndexVocabulary.insert Index.indexedIri v s).2
  | .insertBlank s => (IndexVocabulary.insert_blank_id Index.indexedBlankId v s).2

/-- The vocabulary obtained from `IndexVocabulary::new` by a sequence of
insertions: the states reachable through the API. -/
def buildVocab (ops : List VocabOp) : IndexVocabulary :=
  ops.foldl applyOp IndexVocabulary.new

/-- The lexical IRIs inserted by a sequence of operations. -/
def insertedIris : List VocabOp → List String
  | [] => []
  | .insertIri s :: rest => s :: insertedIris rest
  | .insertBlank _ :: rest => insertedIris rest

theorem lookupAssoc_applyOp_none {v : IndexVocabulary} {x : String}
    (hnone : lookupAssoc v.map x = none) (op : VocabOp)
    (hop : ∀ s, op = .insertIri s → s ≠ x) :
    lookupAssoc (applyOp v op).map x = none := by
  cases op with
  | insertIri s =>
    have hs : s ≠ x := hop s rfl
    unfold applyOp IndexVocabulary.insert
    simp only [Index.indexedIri]
    cases hlook : lookupAssoc v.map s with
    | some i => exact hnone
    | none => simpa [lookupAssoc, hs] using hnone
  | insertBlank s =>
    unfold applyOp IndexVocabulary.insert_blank_id
    simp only [Index.indexedBlankId]
    cases hlook : lookupAssoc v.blank_map s with
    | some i => exact hnone
    | none => exact hnone

theorem lookupAssoc_foldl_none {x : String} (ops : List VocabOp) :
    ∀ v : IndexVocabulary, lookupAssoc v.map x = none →
      x ∉ insertedIris ops →
      lookupAssoc (ops.foldl applyOp v).map x = none := by
  induction ops with
  | nil => intro v hv _; simpa using hv
  | cons op rest ih =>
    intro v hv hx
    simp only [List.foldl_cons]
    refine ih (applyOp v op) ?_ ?_
    · refine lookupAssoc_applyOp_none hv op ?_
      intro s hs
      subst hs
      simp only [insertedIris, List.mem_cons] at hx
      intro hsx
      exact hx (Or.inl hsx.symm)
    · cases op with
      | insertIri s =>
        simp only [insertedIris, List.mem_cons] at hx
        exact fun h => hx (Or.inr h)
      | insertBlank s => exact hx

theorem insert_of_tryFrom_some {I : Type} (inst : IndexedIri I)
    (v : IndexVocabulary) (x : String) (id : I)
    (h : inst.tryFromIri x = some id) :
    IndexVocabulary.insert inst v x = (id, v) := by
  unfold IndexVocabulary.insert
  simp [h]

theorem insert_of_lookup_some {I : Type} (inst : IndexedIri I)
    (v : IndexVocabulary) (x : String) (i : Nat)
    (h1 : inst.tryFromIri x = none) (h2 : lookupAssoc v.map x = some i) :
    IndexVocabulary.insert inst v x = (inst.ofNat i, v) := by
  unfold IndexVocabulary.insert
  simp [h1, h2]

theorem insert_of_lookup_none {I : Type} (inst : IndexedIri I)
    (v : IndexVocabulary) (x : String)
    (h1 : inst.tryFromIri x = none) (h2 : lookupAssoc v.map x = none) :
    IndexVocabulary.insert inst v x =
      (inst.ofNat v.allocated.length,
        { v with
          allocated := v.allocated ++ [x]
          map := (x, v.allocated.length) :: v.map }) := by
  unfold IndexVocabulary.insert
  simp [h1, h2]

theorem insert_blank_of_tryFrom_some {B : Type} (inst : IndexedBlankId B)
    (v : IndexVocabulary) (x : String) (id : B)
    (h : inst.tryFromBlankId x = some id) :
    IndexVocabulary.insert_blank_id inst v x = (id, v) := by
  unfold IndexVocabulary.insert_blank_id
  simp [h]

theorem insert_blank_of_lookup_some {B : Type} (inst : IndexedBlankId B)
    (v : IndexVocabulary) (x : String) (i : Nat)
    (h1 : inst.tryFromBlankId x = none)
    (h2 : lookupAssoc v.blank_map x = some i) :
    IndexVocabulary.insert_blank_id inst v x = (inst.ofNat i, v) := by
  unfold IndexVocabulary.insert_blank_id
  simp [h1, h2]

theorem insert_blank_of_lookup_none {B : Type} (inst : IndexedBlankId B)
    (v : IndexVocabulary) (x : String)
    (h1 : inst.tryFromBlankId x = none)
    (h2 : lookupAssoc v.blank_map x = none) :
    IndexVocabulary.insert_blank_id inst v x =
      (inst.ofNat v.blank_allocated.length,
        { v with
          blank_allocated := v.blank_allocated ++ [x]
          blank_map := (x, v.blank_allocated.length) :: v.blank_map }) := by
  unfold IndexVocabulary.insert_blank_id
  simp [h1, h2]

/-- Claim C1: inserting a lexical IRI into an (API-reachable, i.e.
well-formed) `IndexVocabulary` and then resolving the returned identifier
with `iri` yields back exactly the inserted IRI; symmetrically, inserting a
blank-node identifier with `insert_blank_id` and resolving with `blank_id`
yields it back. -/
theorem insert_iri_resolve_round_trip (v : IndexVocabulary) (hv : WF v)
    (x bx : String) :
    IndexVocabulary.iri Index.indexedIri
        (IndexVocabulary.insert Index.indexedIri v x).2
        (IndexVocabulary.insert Index.indexedIri v x).1 = some x ∧
    IndexVocabulary.blank_id Index.indexedBlankId
        (IndexVocabulary.insert_blank_id Index.indexedBlankId v bx).2
        (IndexVocabulary.insert_blank_id Index.indexedBlankId v bx).1
      = some bx := by
  constructor
  · unfold IndexVocabulary.insert IndexVocabulary.iri
    simp only [Index.indexedIri]
    cases hlook : lookupAssoc v.map x with
    | some i => simpa using hv.iri_sound x i hlook
    | none => simp
  · unfold IndexVocabulary.insert_blank_id IndexVocabulary.blank_id
    simp only [Index.indexedBlankId]
    cases hlook : lookupAssoc v.blank_map bx with
    | some i => simpa using hv.blank_sound bx i hlook
    | none => simp

/-- Witness for C1: the round trip evaluated on the fresh vocabulary with a
concrete IRI and blank-node identifier. -/
theorem insert_iri_resolve_round_trip_witness :
    WF IndexVocabulary.new ∧
    (IndexVocabulary.iri Index.indexedIri
        (IndexVocabulary.insert Index.indexedIri IndexVocabulary.new
          "http://example.org/a").2
        (IndexVocabulary.insert Index.indexedIri IndexVocabulary.new
          "http://example.org/a").1 = some "http://example.org/a" ∧
    IndexVocabulary.blank_id Index.indexedBlankId
        (IndexVocabulary.insert_blank_id Index.indexedBlankId
          IndexVocabulary.new "b0").2
        (IndexVocabulary.insert_blank_id Index.indexedBlankId
          IndexVocabulary.new "b0").1 = some "b0") :=
  ⟨wf_new,
    insert_iri_resolve_round_trip IndexVocabulary.new wf_new
      "http://example.org/a" "b0"⟩

/-- Claim C2: inserting two distinct lexical IRIs in sequence into the same
(API-reachable, i.e. well-formed) `IndexVocabulary` returns distinct
identifiers: insertion is injective on lexical forms. -/
theorem insert_injective (v : IndexVocabulary) (hv : WF v) (a b : String)
    (hab : a ≠ b) :
    (IndexVocabulary.insert Index.indexedIri
        (IndexVocabulary.insert Index.indexedIri v a).2 b).1
      ≠ (IndexVocabulary.insert Index.indexedIri v a).1 := by
  have htf : ∀ s : String, Index.indexedIri.tryFromIri s = none := fun _ => rfl
  cases hla : lookupAssoc v.map a with
  | some i =>
    rw [insert_of_lookup_some Index.indexedIri v a i (htf a) hla]
    have hia := hv.iri_sound a i hla
    have hi : i < v.allocated.length := (List.getElem?_eq_some_iff.mp hia).1
    show (IndexVocabulary.insert Index.indexedIri v b).1 ≠ i
    cases hlb : lookupAssoc v.map b with
    | some j =>
      rw [insert_of_lookup_some Index.indexedIri v b j (htf b) hlb]
      have hjb := hv.iri_sound b j hlb
      show j ≠ i
      intro hji
      rw [hji, hia] at hjb
      exact hab (Option.some.inj hjb)
    | none =>
      rw [insert_of_lookup_none Index.indexedIri v b (htf b) hlb]
      show v.allocated.length ≠ i
      omega
  | none =>
    rw [insert_of_lookup_none Index.indexedIri v a (htf a) hla]
    show (IndexVocabulary.insert Index.indexedIri
      { v with
        allocated := v.allocated ++ [a]
        map := (a, v.allocated.length) :: v.map } b).1 ≠ v.allocated.length
    have hb :
        lookupAssoc ((a, v.allocated.length) :: v.map) b
          = lookupAssoc v.map b := by
      simp [lookupAssoc, hab]
    cases hlb : lookupAssoc v.map b with
    | some j =>
      rw [insert_of_lookup_some Index.indexedIri _ b j (htf b)
        (hb.trans hlb)]
      have hjb := hv.iri_sound b j hlb
      have hj : j < v.allocated.length := (List.getElem?_eq_some_iff.mp hjb).1
      show j ≠ v.allocated.length
      omega
    | none =>
      rw [insert_of_lookup_none Index.indexedIri _ b (htf b)
        (hb.trans hlb)]
      show (v.allocated ++ [a]).length ≠ v.allocated.length
      simp

/-- Witness for C2: two distinct IRIs inserted into the fresh vocabulary get
distinct indices. -/
theorem insert_injective_witness :
    WF IndexVocabulary.new ∧ "http://a" ≠ "http://b" ∧
    (IndexVocabulary.insert Index.indexedIri
        (IndexVocabulary.insert Index.indexedIri IndexVocabulary.new
          "http://a").2 "http://b").1
      ≠ (IndexVocabulary.insert Index.indexedIri IndexVocabulary.new
          "http://a").1 :=
  ⟨wf_new, by decide,
    insert_injective IndexVocabulary.new wf_new "http://a" "http://b"
      (by decide)⟩

/-- Claim C3: `insert` is idempotent — for any `IndexedIri` identifier type,
calling `insert` twice with equal lexical input returns the identical
identifier both times, and the second call leaves the vocabulary unchanged
(it reuses the stored identifier instead of allocating a new one). -/
theorem insert_idempotent {I : Type} (inst : IndexedIri I)
    (v : IndexVocabulary) (x : String) :
    IndexVocabulary.insert inst
        (IndexVocabulary.insert inst v x).2 x
      = ((IndexVocabulary.insert inst v x).1,
         (IndexVocabulary.insert inst v x).2) := by
  unfold IndexVocabulary.insert
  cases htf : inst.tryFromIri x with
  | some id => simp [htf]
  | none =>
    cases hlook : lookupAssoc v.map x with
    | some i => simp [htf, hlook]
    | none => simp [htf, hlook, lookupAssoc]

/-- Claim C4: `insert` follows the interning algorithm exactly. For any
`IndexedIri` identifier type: (1) if the lexical form classifies as a
statically-known inline identifier, that identifier is returned with the
state (arena and map) unchanged; (2) otherwise, if the hash map knows the
form, the stored index is returned with the state unchanged; (3) otherwise
the form is appended to the arena, receives the arena's pre-append length as
its index, the mapping is recorded, and that index is returned — the blank
fields are untouched. `insert_blank_id` is identically structured over the
independent `blank_allocated`/`blank_map` pair, leaving the IRI fields
untouched. At the default `Index` types, both index spaces start at zero:
the first dynamic IRI and the first dynamic blank id in a fresh vocabulary
both get index `0`. -/
theorem insert_interning_algorithm {I B : Type} (inst : IndexedIri I)
    (binst : IndexedBlankId B) (v : IndexVocabulary) (x y : String) :
    (∀ id, inst.tryFromIri x = some id →
      IndexVocabulary.insert inst v x = (id, v)) ∧
    (∀ i, inst.tryFromIri x = none → lookupAssoc v.map x = some i →
      IndexVocabulary.insert inst v x = (inst.ofNat i, v)) ∧
    (inst.tryFromIri x = none → lookupAssoc v.map x = none →
      IndexVocabulary.insert inst v x =
        (inst.ofNat v.allocated.length,
          { allocated := v.allocated ++ [x]
            map := (x, v.allocated.length) :: v.map
            blank_allocated := v.blank_allocated
            blank_map := v.blank_map })) ∧
    (∀ id, binst.tryFromBlankId y = some id →
      IndexVocabulary.insert_blank_id binst v y = (id, v)) ∧
    (∀ i, binst.tryFromBlankId y = none →
        lookupAssoc v.blank_map y = some i →
      IndexVocabulary.insert_blank_id binst v y = (binst.ofNat i, v)) ∧
    (binst.tryFromBlankId y = none → lookupAssoc v.blank_map y = none →
      IndexVocabulary.insert_blank_id binst v y =
        (binst.ofNat v.blank_allocated.length,
          { allocated := v.allocated
            map := v.map
            blank_allocated := v.blank_allocated ++ [y]
            blank_map := (y, v.blank_allocated.length) :: v.blank_map })) ∧
    (IndexVocabulary.insert Index.indexedIri IndexVocabulary.new x).1 = 0 ∧
    (IndexVocabulary.insert_blank_id Index.indexedBlankId
      IndexVocabulary.new y).1 = 0 := by
  refine ⟨?_, ?_, ?_, ?_, ?_, ?_, rfl, rfl⟩
  · intro id h
    exact insert_of_tryFrom_some inst v x id h
  · intro i h1 h2
    exact insert_of_lookup_some inst v x i h1 h2
  · intro h1 h2
    exact insert_of_lookup_none inst v x h1 h2
  · intro id h
    exact insert_blank_of_tryFrom_some binst v y id h
  · intro i h1 h2
    exact insert_blank_of_lookup_some binst v y i h1 h2
  · intro h1 h2
    exact insert_blank_of_lookup_none binst v y h1 h2

/-- Witness for C4: the algorithm theorem instantiated at the default
`Index` identifier types on concrete input, with its conditional conclusions
discharged on the fresh vocabulary. -/
theorem insert_interning_algorithm_witness :
    Index.indexedIri.tryFromIri "http://a" = none ∧
    lookupAssoc IndexVocabulary.new.map "http://a" = none ∧
    IndexVocabulary.insert Index.indexedIri IndexVocabulary.new "http://a" =
      (0, { allocated := ["http://a"], map := [("http://a", 0)],
            blank_allocated := [], blank_map := [] }) :=
  ⟨rfl, rfl, by
    have h := (insert_interning_algorithm Index.indexedIri
      Index.indexedBlankId IndexVocabulary.new "http://a" "b0").2.2.1
      rfl rfl
    simpa [IndexVocabulary.new] using h⟩

/-- Claim C7: `get` is a pure lookup. In this embedding `get` consumes the
state and returns only an `Option` (no new state), mirroring Rust's `&self`
receiver: it cannot modify the vocabulary or allocate. For every vocabulary
reachable through the API by a sequence of insertions, and every lexical IRI
that was never among the inserted IRIs, `get` returns `none`. -/
theorem get_never_inserted (ops : List VocabOp) (x : String)
    (hx : x ∉ insertedIris ops) :
    IndexVocabulary.get Index.indexedIri (buildVocab ops) x = none := by
  unfold IndexVocabulary.get
  simp only [Index.indexedIri]
  have h := lookupAssoc_foldl_none ops IndexVocabulary.new
    (by simp [IndexVocabulary.new, lookupAssoc]) hx
  unfold buildVocab
  simp [h]

/-- Witness for C7: a concrete vocabulary built from two insertions, and a
concrete IRI that was never inserted. -/
theorem get_never_inserted_witness :
    "http://c" ∉ insertedIris [VocabOp.insertIri "http://a",
      VocabOp.insertBlank "b0"] ∧
    IndexVocabulary.get Index.indexedIri
        (buildVocab [VocabOp.insertIri "http://a", VocabOp.insertBlank "b0"])
        "http://c" = none :=
  ⟨by decide,
    get_never_inserted [VocabOp.insertIri "http://a",
      VocabOp.insertBlank "b0"] "http://c" (by decide)⟩

/-- Model of `Id<I, B>` from `src/term/id.rs`: an RDF node identifier, either a blank
node identifier (`Blank(B)`, declared first) or an IRI (`Iri(I)`). -/
inductive Id (I B : Type) where
  | blank : B → Id I B
  | iri : I → Id I B
deriving DecidableEq, Repr

/-- Model of `Term<I, L>` from `src/term/mod.rs`: a gRDF term, either a node
identifier (`Id(I)`, declared first) or a literal value (`Literal(L)`). -/
inductive Term (I L : Type) where
  | id : I → Term I L
  | literal : L → Term I L
deriving DecidableEq, Repr

/-- The hand-written `Hash for Id` implementation (`src/term/id.rs` lines
274–281), with Rust's streaming `Hasher` modelled as a state type `σ` and
the payload hashes as state transformers: each variant forwards directly to
its payload's hash, with no variant tag mixed in. -/
def Id.hashWith {I B σ : Type} (hI : I → σ → σ) (hB : B → σ → σ) :
    Id I B → σ → σ
  | .blank id, s => hB id s
  | .iri i, s => hI i s

/-- The hand-written `Hash for Term` implementation (`src/term/mod.rs` lines
55–62): each variant forwards directly to its payload's hash. -/
def Term.hashWith {I L σ : Type} (hI : I → σ → σ) (hL : L → σ → σ) :
    Term I L → σ → σ
  | .id a, s => hI a s
  | .literal l, s => hL l s

/-- The hand-written `PartialEq for Id` implementation (`src/term/id.rs`
lines 293–301), generic over the payload comparisons. -/
def Id.eqWith {I₁ B₁ I₂ B₂ : Type} (eqI : I₁ → I₂ → Bool)
    (eqB : B₁ → B₂ → Bool) : Id I₁ B₁ → Id I₂ B₂ → Bool
  | .blank a, .blank b => eqB a b
  | .iri a, .iri b => eqI a b
  | _, _ => false

/-- The hand-written `PartialOrd for Id` implementation (`src/term/id.rs`
lines 303–312), with the source's match-arm order: equal variants compare
payloads; `Blank` against anything else is `Less`; anything else is
`Greater`. -/
def Id.partialCmpWith {I₁ B₁ I₂ B₂ : Type}
    (cmpI : I₁ → I₂ → Option Ordering) (cmpB : B₁ → B₂ → Option Ordering) :
    Id I₁ B₁ → Id I₂ B₂ → Option Ordering
  | .blank a, .blank b => cmpB a b
  | .blank _, _ => some .lt
  | .iri a, .iri b => cmpI a b
  | _, _ => some .gt

/-- The hand-written `PartialEq for Term` implementation (`src/term/mod.rs`
lines 378–386). -/
def Term.eqWith {I₁ L₁ I₂ L₂ : Type} (eqI : I₁ → I₂ → Bool)
    (eqL : L₁ → L₂ → Bool) : Term I₁ L₁ → Term I₂ L₂ → Bool
  | .id a, .id b => eqI a b
  | .literal a, .literal b => eqL a b
  | _, _ => false

/-- The hand-written `PartialOrd for Term` implementation (`src/term/mod.rs`
lines 388–397): `Id` precedes `Literal`. -/
def Term.partialCmpWith {I₁ L₁ I₂ L₂ : Type}
    (cmpI : I₁ → I₂ → Option Ordering) (cmpL : L₁ → L₂ → Option Ordering) :
    Term I₁ L₁ → Term I₂ L₂ → Option Ordering
  | .id a, .id b => cmpI a b
  | .id _, .literal _ => some .lt
  | .literal a, .literal b => cmpL a b
  | .literal _, .id _ => some .gt

/-- Claim C5: hashing and comparison are transparent across wrapping
variants. For every hasher state and payload hash functions, hashing
`Term::Id(id)` equals hashing `id`, hashing `Term::Literal(l)` equals
hashing `l`, hashing `Id::Iri(i)` equals hashing `i` and hashing
`Id::Blank(b)` equals hashing `b`; and comparing (equality or partial
order) two values of the same variant gives exactly the result of comparing
the unwrapped payloads. -/
theorem transparent_hash_and_cmp {I B L σ : Type}
    (hI : I → σ → σ) (hB : B → σ → σ) (hId : Id I B → σ → σ)
    (hL : L → σ → σ)
    (eqI : I → I → Bool) (eqB : B → B → Bool)
    (eqId : Id I B → Id I B → Bool) (eqL : L → L → Bool)
    (cmpI : I → I → Option Ordering) (cmpB : B → B → Option Ordering)
    (cmpId : Id I B → Id I B → Option Ordering)
    (cmpL : L → L → Option Ordering) :
    (∀ (id : Id I B) (s : σ),
      Term.hashWith hId hL (Term.id id) s = hId id s) ∧
    (∀ (l : L) (s : σ),
      Term.hashWith hId hL (Term.literal l) s = hL l s) ∧
    (∀ (i : I) (s : σ), Id.hashWith hI hB (Id.iri i) s = hI i s) ∧
    (∀ (b : B) (s : σ), Id.hashWith hI hB (Id.blank b) s = hB b s) ∧
    (∀ (a b : Id I B),
      Term.eqWith eqId eqL (Term.id a) (Term.id b) = eqId a b) ∧
    (∀ (a b : L),
      Term.eqWith eqId eqL (Term.literal a) (Term.literal b) = eqL a b) ∧
    (∀ (a b : Id I B),
      Term.partialCmpWith cmpId cmpL (Term.id a) (Term.id b) = cmpId a b) ∧
    (∀ (a b : L),
      Term.partialCmpWith cmpId cmpL (Term.literal a) (Term.literal b)
        = cmpL a b) ∧
    (∀ (a b : I), Id.eqWith eqI eqB (Id.iri a) (Id.iri b) = eqI a b) ∧
    (∀ (a b : B), Id.eqWith eqI eqB (Id.blank a) (Id.blank b) = eqB a b) ∧
    (∀ (a b : I),
      Id.partialCmpWith cmpI cmpB (Id.iri a) (Id.iri b) = cmpI a b) ∧
    (∀ (a b : B),
      Id.partialCmpWith cmpI cmpB (Id.blank a) (Id.blank b) = cmpB a b) :=
  ⟨fun _ _ => rfl, fun _ _ => rfl, fun _ _ => rfl, fun _ _ => rfl,
   fun _ _ => rfl, fun _ _ => rfl, fun _ _ => rfl, fun _ _ => rfl,
   fun _ _ => rfl, fun _ _ => rfl, fun _ _ => rfl, fun _ _ => rfl⟩

/-- Claim C6: the order on `Id` is total and variant-stratified. Every
`Blank` compares strictly below every `Iri` regardless of payloads (and
symmetrically `Iri` above `Blank`); within one variant the order is exactly
the payload's order; and whenever the payload comparisons are total, so is
the comparison on `Id`. -/
theorem id_order_total_and_stratified {I B : Type}
    (cmpI : I → I → Option Ordering) (cmpB : B → B → Option Ordering)
    (hI : ∀ x y, (cmpI x y).isSome) (hB : ∀ x y, (cmpB x y).isSome) :
    (∀ (b : B) (i : I),
      Id.partialCmpWith cmpI cmpB (Id.blank b) (Id.iri i)
        = some Ordering.lt) ∧
    (∀ (i : I) (b : B),
      Id.partialCmpWith cmpI cmpB (Id.iri i) (Id.blank b)
        = some Ordering.gt) ∧
    (∀ (b b' : B),
      Id.partialCmpWith cmpI cmpB (Id.blank b) (Id.blank b') = cmpB b b') ∧
    (∀ (i i' : I),
      Id.partialCmpWith cmpI cmpB (Id.iri i) (Id.iri i') = cmpI i i') ∧
    (∀ (a b : Id I B), (Id.partialCmpWith cmpI cmpB a b).isSome) := by
  refine ⟨fun _ _ => rfl, fun _ _ => rfl, fun _ _ => rfl, fun _ _ => rfl,
    ?_⟩
  intro a b
  cases a <;> cases b <;> simp [Id.partialCmpWith, hI, hB]

/-- Total comparison on `Nat` payloads, used to instantiate witnesses. -/
def natCmp (x y : Nat) : Option Ordering := some (compare x y)

/-- Witness for C6: the stratification and payload-order equations evaluated
at concrete payloads, with the totality hypotheses discharged for
`natCmp`. -/
theorem id_order_total_and_stratified_witness :
    Id.partialCmpWith natCmp natCmp (Id.blank 5) (Id.iri 0)
      = some Ordering.lt ∧
    Id.partialCmpWith natCmp natCmp (Id.iri 3) (Id.iri 7) = natCmp 3 7 ∧
    (Id.partialCmpWith natCmp natCmp (Id.iri 3) (Id.blank 9)).isSome :=
  ⟨(id_order_total_and_stratified natCmp natCmp (fun _ _ => rfl)
      (fun _ _ => rfl)).1 5 0,
   (id_order_total_and_stratified natCmp natCmp (fun _ _ => rfl)
      (fun _ _ => rfl)).2.2.2.1 3 7,
   (id_order_total_and_stratified natCmp natCmp (fun _ _ => rfl)
      (fun _ _ => rfl)).2.2.2.2 (Id.iri 3) (Id.blank 9)⟩

/-- Model of `Quad<S, P, O, G>` from `src/quad.rs`: a tuple struct whose fourth
component is `Option<G>` (`None` denotes the default graph). Field names
follow the `subject`/`predicate`/`object`/`graph` accessors. -/
structure Quad (S P O G : Type) where
  subject : S
  predicate : P
  object : O
  graph : Option G
deriving DecidableEq, Repr

/-- Model of `QuadExportFailed<S, P, O, G>` from `src/quad.rs` lines 381–394: a
tagged export failure naming the offending component and wrapping its
cause. -/
inductive QuadExportFailed (ES EP EO EG : Type) where
  | subject : ES → QuadExportFailed ES EP EO EG
  | predicate : EP → QuadExportFailed ES EP EO EG
  | object : EO → QuadExportFailed ES EP EO EG
  | graph : EG → QuadExportFailed ES EP EO EG
deriving DecidableEq, Repr

/-- Model of `TryExtractFromVocabulary for Quad` (`src/quad.rs` lines 396–423),
generic over the component extractions (the vocabulary is already applied
inside `fs`/`fp`/`fo`/`fg`): each component is extracted in order with `?`,
tagging a failure with its component's `QuadExportFailed` constructor. The
fourth component is the whole `Option<G>` field, as in the source. -/
def Quad.try_extract_from_vocabulary {S P O G S2 P2 O2 G2 ES EP EO EG : Type}
    (fs : S → Except ES S2) (fp : P → Except EP P2)
    (fo : O → Except EO O2) (fg : Option G → Except EG (Option G2))
    (q : Quad S P O G) :
    Except (QuadExportFailed ES EP EO EG) (Quad S2 P2 O2 G2) :=
  match fs q.subject with
  | .error e => .error (.subject e)
  | .ok s2 =>
    match fp q.predicate with
    | .error e => .error (.predicate e)
    | .ok p2 =>
      match fo q.object with
      | .error e => .error (.object e)
      | .ok o2 =>
        match fg q.graph with
        | .error e => .error (.graph e)
        | .ok g2 => .ok ⟨s2, p2, o2, g2⟩

/-- Claim C8: when the subject, predicate and graph components extract
successfully but the object extraction fails with cause `e`,
`try_extract_from_vocabulary` on a quad returns exactly the `Object`-tagged
error wrapping `e` — never a `Subject`-, `Predicate`- or `Graph`-tagged
one. -/
theorem quad_export_object_failure {S P O G S2 P2 O2 G2 ES EP EO EG : Type}
    (fs : S → Except ES S2) (fp : P → Except EP P2)
    (fo : O → Except EO O2) (fg : Option G → Except EG (Option G2))
    (s : S) (p : P) (o : O) (g : Option G)
    (s2 : S2) (p2 : P2) (g2 : Option G2) (e : EO)
    (hs : fs s = .ok s2) (hp : fp p = .ok p2)
    (ho : fo o = .error e) (_hg : fg g = .ok g2) :
    Quad.try_extract_from_vocabulary fs fp fo fg ⟨s, p, o, g⟩
      = .error (QuadExportFailed.object e) := by
  unfold Quad.try_extract_from_vocabulary
  simp [hs, hp, ho]

/-- Witness for C8: a concrete quad over `Nat` components whose object
extraction alone fails. -/
theorem quad_export_object_failure_witness :
    (fun n : Nat => (Except.ok n : Except String Nat)) 1 = Except.ok 1 ∧
    (fun n : Nat => (Except.error (Nat.repr n) : Except String Nat)) 3
      = Except.error "3" ∧
    Quad.try_extract_from_vocabulary
        (fun n : Nat => (Except.ok n : Except String Nat))
        (fun n : Nat => (Except.ok n : Except String Nat))
        (fun n : Nat => (Except.error (Nat.repr n) : Except String Nat))
        (fun g : Option Nat => (Except.ok g : Except String (Option Nat)))
        ⟨1, 2, 3, some 4⟩
      = Except.error (QuadExportFailed.object "3") :=
  ⟨rfl, rfl,
    quad_export_object_failure
      (fun n : Nat => (Except.ok n : Except String Nat))
      (fun n : Nat => (Except.ok n : Except String Nat))
      (fun n : Nat => (Except.error (Nat.repr n) : Except String Nat))
      (fun g : Option Nat => (Except.ok g : Except String (Option Nat)))
      1 2 3 (some 4) 1 2 (some 4) "3" rfl rfl rfl rfl⟩

/-- The hand-written `PartialEq for Quad` implementation (`src/quad.rs`
lines 425–446), generic over the component comparisons: component-wise
conjunction, with the graph components equal only when both are `None` or
both are `Some` of equal payloads. -/
def Quad.eqWith {S₁ P₁ O₁ G₁ S₂ P₂ O₂ G₂ : Type}
    (es : S₁ → S₂ → Bool) (ep : P₁ → P₂ → Bool) (eo : O₁ → O₂ → Bool)
    (eg : G₁ → G₂ → Bool) (a : Quad S₁ P₁ O₁ G₁) (b : Quad S₂ P₂ O₂ G₂) :
    Bool :=
  es a.subject b.subject && ep a.predicate b.predicate &&
    eo a.object b.object &&
    match a.graph, b.graph with
    | some x, some y => eg x y
    | none, none => true
    | _, _ => false

/-- The hand-written `PartialOrd for Quad` implementation (`src/quad.rs`
lines 448–476): lexicographic by component, short-circuiting on the first
non-`Equal` result; on the graph component `Some` is `Greater` than `None`
and `None` is `Less` than `Some`. -/
def Quad.partialCmpWith {S₁ P₁ O₁ G₁ S₂ P₂ O₂ G₂ : Type}
    (cs : S₁ → S₂ → Option Ordering) (cp : P₁ → P₂ → Option Ordering)
    (co : O₁ → O₂ → Option Ordering) (cg : G₁ → G₂ → Option Ordering)
    (a : Quad S₁ P₁ O₁ G₁) (b : Quad S₂ P₂ O₂ G₂) : Option Ordering :=
  match cs a.subject b.subject with
  | some Ordering.eq =>
    match cp a.predicate b.predicate with
    | some Ordering.eq =>
      match co a.object b.object with
      | some Ordering.eq =>
        match a.graph, b.graph with
        | some x, some y => cg x y
        | some _, none => some Ordering.gt
        | none, some _ => some Ordering.lt
        | none, none => some Ordering.eq
      | c => c
    | c => c
  | c => c

/-- Claim C10: in quad equality and ordering the default graph (fourth
component `None`) is distinct from and strictly precedes every named graph:
`Quad(s, p, o, None)` never equals `Quad(s, p, o, Some(g))` (for any
component equality functions), and when the first three components compare
`Equal`, the `None`-graph quad compares strictly `Less` than the
`Some`-graph quad. -/
theorem quad_default_graph_distinct_and_least {S P O G : Type}
    (es : S → S → Bool) (ep : P → P → Bool) (eo : O → O → Bool)
    (eg : G → G → Bool)
    (cs : S → S → Option Ordering) (cp : P → P → Option Ordering)
    (co : O → O → Option Ordering) (cg : G → G → Option Ordering)
    (s : S) (p : P) (o : O) (g : G)
    (hs : cs s s = some Ordering.eq) (hp : cp p p = some Ordering.eq)
    (ho : co o o = some Ordering.eq) :
    Quad.eqWith es ep eo eg ⟨s, p, o, none⟩ ⟨s, p, o, some g⟩ = false ∧
    Quad.partialCmpWith cs cp co cg ⟨s, p, o, none⟩ ⟨s, p, o, some g⟩
      = some Ordering.lt := by
  constructor
  · simp [Quad.eqWith]
  · simp [Quad.partialCmpWith, hs, hp, ho]

/-- Boolean equality on `Nat` payloads, used to instantiate witnesses. -/
def natEq (x y : Nat) : Bool := x == y

/-- Witness for C10: a concrete quad over `Nat` components, in and out of
the default graph. -/
theorem quad_default_graph_witness :
    natCmp 1 1 = some Ordering.eq ∧
    Quad.eqWith natEq natEq natEq natEq ⟨1, 2, 3, none⟩ ⟨1, 2, 3, some 4⟩
      = false ∧
    Quad.partialCmpWith natCmp natCmp natCmp natCmp ⟨1, 2, 3, none⟩
      ⟨1, 2, 3, some 4⟩ = some Ordering.lt :=
  ⟨rfl,
   (quad_default_graph_distinct_and_least natEq natEq natEq natEq
     natCmp natCmp natCmp natCmp 1 2 3 4 rfl rfl rfl).1,
   (quad_default_graph_distinct_and_least natEq natEq natEq natEq
     natCmp natCmp natCmp natCmp 1 2 3 4 rfl rfl rfl).2⟩

/-- The sequential `Blank` node-identifier generator from
`src/generator.rs`: a prefix string (field `prefix` in the source) and the
count of already generated identifiers. -/
structure Blank where
  prefixStr : String
  count : Nat
deriving DecidableEq, Repr

/-- Model of `Blank::new_full(prefix, offset)`. -/
def Blank.new_full (p : String) (offset : Nat) : Blank :=
  { prefixStr := p, count := offset }

/-- Model of `Blank::next_blank_id` (`src/generator.rs` lines 103–108): formats
`"_:{prefix}{count}"` and increments the count; the `&mut self` receiver is
modelled by returning the updated generator. -/
def Blank.next_blank_id (g : Blank) : String × Blank :=
  ("_:" ++ g.prefixStr ++ Nat.repr g.count, { g with count := g.count + 1 })

/-- Iterates `next_blank_id` the given number of times, collecting the
generated identifiers in order. -/
def Blank.genList : Blank → Nat → List String
  | _, 0 => []
  | g, k + 1 =>
    (g.next_blank_id).1 :: Blank.genList (g.next_blank_id).2 k

/-- Claim C9: the sequential blank-node generator with prefix `p` and
current count `n` produces `"_:{p}{n}"` and increments the count by one;
in particular, with prefix `"b"` and offset `0`, five successive calls
yield exactly `_:b0, _:b1, _:b2, _:b3, _:b4`, with no repeats. -/
theorem blank_generator_sequence :
    (∀ (p : String) (n : Nat),
      Blank.next_blank_id { prefixStr := p, count := n }
        = ("_:" ++ p ++ Nat.repr n, { prefixStr := p, count := n + 1 })) ∧
    Blank.genList (Blank.new_full "b" 0) 5
      = ["_:b0", "_:b1", "_:b2", "_:b3", "_:b4"] ∧
    (["_:b0", "_:b1", "_:b2", "_:b3", "_:b4"] : List String).Nodup := by
  refine ⟨fun p n => rfl, by decide, by decide⟩

end RdfTypes
